import Mathlib

/-!
Verification of the SimpleEQ DSP filter-chain engine and spectrum pipeline.

The development shallowly embeds the plugin's core: slope handling and cascade
stage activation (updateCutFilter / update<Index> from PluginEditor.cpp),
stereo coefficient updates (updatePeakFilter, updateLowCutFilter,
updateHighCutFilter, updateFilters), the real-time processing entry point
(SimpleEQAudioProcessor::processBlock over two juce::dsp::ProcessorChain
instances), the editor's analytic response-curve computation
(ResponseCurveComponent::paint / updateChain / timerCallback), the FFT data
generator (FFTDataGenerator::produceFFTDataForRendering), and the bounded
single-producer single-consumer Fifo.  Float arithmetic is idealised as exact
real arithmetic.  JUCE library design formulas (peak / Butterworth biquads,
decibel conversion, magnitude response) are embedded from their standard
definitions; repository code absent from the available sources (the current
PluginProcessor.h) is modelled from the specification and marked as such.
-/

noncomputable section

/-- The slope selector enum from PluginProcessor.h: 12/24/36/48 dB per octave. -/
inductive Slope where
  | Slope_12 : Slope
  | Slope_24 : Slope
  | Slope_36 : Slope
  | Slope_48 : Slope
deriving DecidableEq

open Slope

/-- Numeric value of the slope enum (C++ enumerators are 0,1,2,3); the code
computes the filter order as `2 * (slope + 1)` from this value. -/
def slopeIndex : Slope → ℕ
  | Slope_12 => 0
  | Slope_24 => 1
  | Slope_36 => 2
  | Slope_48 => 3

/-- ChainSettings from PluginProcessor.h.  The three bypass fields are declared
in the current header revision, which is absent from the available sources;
they are reconstructed from getChainSettings in PluginEditor.cpp, which loads
them from the "LowCut Bypassed", "HighCut Bypassed" and "Peak Bypassed"
parameters. -/
structure ChainSettings where
  peakFreq : ℝ
  peakGainInDecibels : ℝ
  peakQuality : ℝ
  lowCutFreq : ℝ
  highCutFreq : ℝ
  lowCutSlope : Slope
  highCutSlope : Slope
  lowCutBypassed : Bool
  highCutBypassed : Bool
  peakBypassed : Bool

/-- Normalized biquad coefficients: juce::dsp::IIR::Coefficients stores the
five taps b0, b1, b2, a1, a2 after dividing through by a0 (the spec's
"5 floating-point taps, normalized form"). -/
structure Coefficients where
  b0 : ℝ
  b1 : ℝ
  b2 : ℝ
  a1 : ℝ
  a2 : ℝ

/-- A CutFilter sub-chain: juce::dsp::ProcessorChain of four IIR filters, one
coefficient slot and one bypass flag per cascade stage (template index 0..3). -/
structure CutChain (α : Type) where
  c0 : α
  c1 : α
  c2 : α
  c3 : α
  byp0 : Bool
  byp1 : Bool
  byp2 : Bool
  byp3 : Bool

/-- Stage coefficient access, the counterpart of chain.get<Index>(). -/
def CutChain.coeffAt {α : Type} (ch : CutChain α) : Fin 4 → α
  | ⟨0, _⟩ => ch.c0
  | ⟨1, _⟩ => ch.c1
  | ⟨2, _⟩ => ch.c2
  | ⟨3, _⟩ => ch.c3

/-- Stage bypass access, the counterpart of chain.isBypassed<Index>(). -/
def CutChain.bypassedAt {α : Type} (ch : CutChain α) : Fin 4 → Bool
  | ⟨0, _⟩ => ch.byp0
  | ⟨1, _⟩ => ch.byp1
  | ⟨2, _⟩ => ch.byp2
  | ⟨3, _⟩ => ch.byp3

/-- The four leading setBypassed<i>(true) calls of updateCutFilter. -/
def CutChain.setAllBypassed {α : Type} (ch : CutChain α) : CutChain α :=
  { ch with byp0 := true, byp1 := true, byp2 := true, byp3 := true }

/-- update<Index>(chain, cutCoeff) from PluginEditor.cpp: overwrite the stage's
coefficients with cutCoeff[Index] and un-bypass that stage. -/
def CutChain.updateStage {α : Type} (cutCoeff : ℕ → α) : Fin 4 → CutChain α → CutChain α
  | ⟨0, _⟩, ch => { ch with c0 := cutCoeff 0, byp0 := false }
  | ⟨1, _⟩, ch => { ch with c1 := cutCoeff 1, byp1 := false }
  | ⟨2, _⟩, ch => { ch with c2 := cutCoeff 2, byp2 := false }
  | ⟨3, _⟩, ch => { ch with c3 := cutCoeff 3, byp3 := false }

/-- updateCutFilter(chain, cutCoeff, slope) from PluginEditor.cpp: bypass all
four stages, then run the switch whose cases deliberately fall through, so
Slope_48 performs update<3>, update<2>, update<1>, update<0>, down to Slope_12
which performs update<0> only. -/
def updateCutFilter {α : Type} (ch : CutChain α) (cutCoeff : ℕ → α) (slope : Slope) :
    CutChain α :=
  let c := ch.setAllBypassed
  match slope with
  | Slope_48 =>
      CutChain.updateStage cutCoeff 0 (CutChain.updateStage cutCoeff 1
        (CutChain.updateStage cutCoeff 2 (CutChain.updateStage cutCoeff 3 c)))
  | Slope_36 =>
      CutChain.updateStage cutCoeff 0 (CutChain.updateStage cutCoeff 1
        (CutChain.updateStage cutCoeff 2 c))
  | Slope_24 =>
      CutChain.updateStage cutCoeff 0 (CutChain.updateStage cutCoeff 1 c)
  | Slope_12 =>
      CutChain.updateStage cutCoeff 0 c

/-! Models of the JUCE library numeric helpers used by the coefficient
factories and the response display.  These are external-library functions
(not repository code); they are embedded from their standard JUCE
definitions, matching the specification's description of the factory. -/

/-- Modelled from the spec: juce::Decibels::decibelsToGain, the conversion
"linear gain = 10^(dB/20)" used by the peak factory; gains at or below the
minus-infinity floor map to zero. -/
def decibelsToGain (decibels minusInfinityDb : ℝ) : ℝ :=
  if minusInfinityDb < decibels then (10 : ℝ) ^ (decibels * 0.05) else 0

/-- Modelled from the spec: juce::Decibels::gainToDecibels, the conversion to
decibels with a floor value returned for zero (or negative) magnitude. -/
def gainToDecibels (gain minusInfinityDb : ℝ) : ℝ :=
  if 0 < gain then max minusInfinityDb (20 * Real.logb 10 gain) else minusInfinityDb

/-- Build the normalized coefficient record from raw b0 b1 b2 a0 a1 a2, as the
six-argument juce::dsp::IIR::Coefficients constructor does (divide by a0). -/
def Coefficients.normalize (b0 b1 b2 a0 a1 a2 : ℝ) : Coefficients :=
  ⟨b0 / a0, b1 / a0, b2 / a0, a1 / a0, a2 / a0⟩

/-- Modelled from the spec: juce::dsp::IIR::Coefficients::makePeakFilter, the
"standard peaking-EQ biquad design from center frequency, Q, and linear
gain". -/
def IIRmakePeakFilter (sampleRate frequency Q gainFactor : ℝ) : Coefficients :=
  let A := Real.sqrt gainFactor
  let omega := 2 * Real.pi * max frequency 2 / sampleRate
  let alpha := Real.sin omega / (Q * 2)
  let c2 := -2 * Real.cos omega
  let alphaTimesA := alpha * A
  let alphaOverA := alpha / A
  Coefficients.normalize (1 + alphaTimesA) c2 (1 - alphaTimesA)
    (1 + alphaOverA) c2 (1 - alphaOverA)

/-- Modelled from the spec: juce::dsp::IIR::Coefficients::makeLowPass with
quality factor (one Butterworth cascade section of the high-cut design). -/
def IIRmakeLowPass (sampleRate frequency Q : ℝ) : Coefficients :=
  let n := 1 / Real.tan (Real.pi * frequency / sampleRate)
  let nSquared := n * n
  let invQ := 1 / Q
  let c1 := 1 / (1 + invQ * n + nSquared)
  Coefficients.normalize c1 (c1 * 2) c1
    1 (c1 * 2 * (1 - nSquared)) (c1 * (1 - invQ * n + nSquared))

/-- Modelled from the spec: juce::dsp::IIR::Coefficients::makeHighPass with
quality factor (one Butterworth cascade section of the low-cut design). -/
def IIRmakeHighPass (sampleRate frequency Q : ℝ) : Coefficients :=
  let n := Real.tan (Real.pi * frequency / sampleRate)
  let nSquared := n * n
  let invQ := 1 / Q
  let c1 := 1 / (1 + invQ * n + nSquared)
  Coefficients.normalize c1 (c1 * -2) c1
    1 (c1 * 2 * (nSquared - 1)) (c1 * (1 - invQ * n + nSquared))

/-- Modelled from the spec: juce::dsp::IIR::Coefficients::makeFirstOrderLowPass
(the extra section of an odd-order Butterworth design), represented as a
biquad whose second-order taps are zero. -/
def IIRmakeFirstOrderLowPass (sampleRate frequency : ℝ) : Coefficients :=
  let n := Real.tan (Real.pi * frequency / sampleRate)
  ⟨n / (n + 1), n / (n + 1), 0, (n - 1) / (n + 1), 0⟩

/-- Modelled from the spec: juce::dsp::IIR::Coefficients::makeFirstOrderHighPass,
represented as a biquad whose second-order taps are zero. -/
def IIRmakeFirstOrderHighPass (sampleRate frequency : ℝ) : Coefficients :=
  let n := Real.tan (Real.pi * frequency / sampleRate)
  ⟨1 / (n + 1), -1 / (n + 1), 0, (n - 1) / (n + 1), 0⟩

/-- Quality factor of section i of an even-order Butterworth cascade, as
computed inside the JUCE high-order Butterworth designers. -/
def butterworthQ (order i : ℕ) : ℝ :=
  1 / (2 * Real.cos ((2 * (i : ℝ) + 1) * Real.pi / (2 * (order : ℝ))))

/-- Quality factor of section i of the odd-order branch of the JUCE
high-order Butterworth designers. -/
def butterworthOddQ (order i : ℕ) : ℝ :=
  1 / (2 * Real.cos (((i : ℝ) + 1) * Real.pi / (order : ℝ)))

/-- Modelled from the spec: juce::dsp::FilterDesign::
designIIRLowpassHighOrderButterworthMethod — a cascade of order/2 second-order
low-pass sections (plus one first-order section when the order is odd). -/
def designIIRLowpassHighOrderButterworthMethod (frequency sampleRate : ℝ)
    (order : ℕ) : List Coefficients :=
  if order % 2 = 1 then
    IIRmakeFirstOrderLowPass sampleRate frequency ::
      (List.range (order / 2)).map
        (fun i => IIRmakeLowPass sampleRate frequency (butterworthOddQ order i))
  else
    (List.range (order / 2)).map
      (fun i => IIRmakeLowPass sampleRate frequency (butterworthQ order i))

/-- Modelled from the spec: juce::dsp::FilterDesign::
designIIRHighpassHighOrderButterworthMethod — the high-pass counterpart. -/
def designIIRHighpassHighOrderButterworthMethod (frequency sampleRate : ℝ)
    (order : ℕ) : List Coefficients :=
  if order % 2 = 1 then
    IIRmakeFirstOrderHighPass sampleRate frequency ::
      (List.range (order / 2)).map
        (fun i => IIRmakeHighPass sampleRate frequency (butterworthOddQ order i))
  else
    (List.range (order / 2)).map
      (fun i => IIRmakeHighPass sampleRate frequency (butterworthQ order i))

/-! The repository's coefficient factories. -/

/-- makePeakFilter(cs, sampleRate) from PluginEditor.cpp: the peak biquad from
center frequency, Q and decibelsToGain of the gain parameter. -/
def makePeakFilter (cs : ChainSettings) (sampleRate : ℝ) : Coefficients :=
  IIRmakePeakFilter sampleRate cs.peakFreq cs.peakQuality
    (decibelsToGain cs.peakGainInDecibels (-100))

/-- makeLowCutFilter from the current PluginProcessor.h (the same call appears
inline in updateLowCutFilter in the older processor source): the high-pass
Butterworth designer invoked with order 2 * (lowCutSlope + 1). -/
def makeLowCutFilter (cs : ChainSettings) (sampleRate : ℝ) : List Coefficients :=
  designIIRHighpassHighOrderButterworthMethod cs.lowCutFreq sampleRate
    (2 * (slopeIndex cs.lowCutSlope + 1))

/-- makeHighCutFilter: the low-pass Butterworth designer invoked with order
2 * (highCutSlope + 1). -/
def makeHighCutFilter (cs : ChainSettings) (sampleRate : ℝ) : List Coefficients :=
  designIIRLowpassHighOrderButterworthMethod cs.highCutFreq sampleRate
    (2 * (slopeIndex cs.highCutSlope + 1))

/-- Indexing model for juce::ReferenceCountedArray::operator[] on a designer
result; in the program every access is within range, so the default value is
never observed. -/
def coeffListIdx (l : List Coefficients) : ℕ → Coefficients :=
  fun i => l.getD i ⟨0, 0, 0, 0, 0⟩

/-! Real-time processing semantics.  juce::dsp::IIR::Filter<float> runs a
transposed direct-form-II biquad; a bypassed ProcessorChain slot is skipped
entirely (its state is left untouched). -/

/-- The two delay registers of one juce::dsp::IIR::Filter biquad. -/
structure BiquadState where
  s1 : ℝ
  s2 : ℝ

/-- The all-zero register state a filter holds right after prepare/reset. -/
def zeroBiquadState : BiquadState := ⟨0, 0⟩

/-- One sample through a biquad with normalized taps (transposed direct form
II, as in juce::dsp::IIR::Filter::processSample). -/
def processSample (c : Coefficients) (st : BiquadState) (x : ℝ) : ℝ × BiquadState :=
  let y := c.b0 * x + st.s1
  (y, ⟨c.b1 * x + st.s2 - c.a1 * y, c.b2 * x - c.a2 * y⟩)

/-- A whole buffer through one biquad, in order, threading the register
state. -/
def processList (c : Coefficients) (st : BiquadState) : List ℝ → List ℝ × BiquadState
  | [] => ([], st)
  | x :: xs =>
    let r := processSample c st x
    let rest := processList c r.2 xs
    (r.1 :: rest.1, rest.2)

/-- Register states of the four stages of one CutFilter sub-chain. -/
structure CutState where
  t0 : BiquadState
  t1 : BiquadState
  t2 : BiquadState
  t3 : BiquadState

/-- All-zero CutFilter state. -/
def zeroCutState : CutState := ⟨zeroBiquadState, zeroBiquadState, zeroBiquadState, zeroBiquadState⟩

/-- A buffer through a CutFilter sub-chain: each of the four stages runs in
order unless its slot is bypassed. -/
def CutChain.process (ch : CutChain Coefficients) (st : CutState) (buf : List ℝ) :
    List ℝ × CutState :=
  let r0 := if ch.byp0 then (buf, st.t0) else processList ch.c0 st.t0 buf
  let r1 := if ch.byp1 then (r0.1, st.t1) else processList ch.c1 st.t1 r0.1
  let r2 := if ch.byp2 then (r1.1, st.t2) else processList ch.c2 st.t2 r1.1
  let r3 := if ch.byp3 then (r2.1, st.t3) else processList ch.c3 st.t3 r2.1
  (r3.1, ⟨r0.2, r1.2, r2.2, r3.2⟩)

/-- MonoChain from PluginProcessor.h: ProcessorChain<CutFilter, Filter,
CutFilter> with a bypass flag per top-level position (LowCut, Peak,
HighCut). -/
structure MonoChain where
  lowCut : CutChain Coefficients
  peak : Coefficients
  highCut : CutChain Coefficients
  lowCutBypassed : Bool
  peakBypassed : Bool
  highCutBypassed : Bool

/-- Register states of the whole nine-biquad mono chain. -/
structure MonoState where
  low : CutState
  pk : BiquadState
  high : CutState

/-- All-zero MonoChain state (the state right after prepareToPlay). -/
def zeroMonoState : MonoState := ⟨zeroCutState, zeroBiquadState, zeroCutState⟩

/-- A buffer through the full mono chain: low-cut sub-chain, then the peak
biquad, then the high-cut sub-chain, each skipped when its top-level position
is bypassed. -/
def MonoChain.process (mc : MonoChain) (st : MonoState) (buf : List ℝ) :
    List ℝ × MonoState :=
  let rl := if mc.lowCutBypassed then (buf, st.low) else mc.lowCut.process st.low buf
  let rp := if mc.peakBypassed then (rl.1, st.pk) else processList mc.peak st.pk rl.1
  let rh := if mc.highCutBypassed then (rp.1, st.high) else mc.highCut.process st.high rp.1
  (rh.1, ⟨rl.2, rp.2, rh.2⟩)

/-! The stereo update functions from the processor source (latest revision):
each applies the same freshly computed coefficients and the same bypass flags
to the left and to the right chain. -/

/-- updatePeakFilter(cs): set the Peak bypass on both chains from the
settings, and copy the same peak coefficients into both chains. -/
def updatePeakFilter (cs : ChainSettings) (sr : ℝ) (chains : MonoChain × MonoChain) :
    MonoChain × MonoChain :=
  let peakCoeff := makePeakFilter cs sr
  ({ chains.1 with peakBypassed := cs.peakBypassed, peak := peakCoeff },
   { chains.2 with peakBypassed := cs.peakBypassed, peak := peakCoeff })

/-- updateLowCutFilter(cs): one designer call, then the same top-level bypass
and the same updateCutFilter application on both chains. -/
def updateLowCutFilter (cs : ChainSettings) (sr : ℝ) (chains : MonoChain × MonoChain) :
    MonoChain × MonoChain :=
  let lowCutCoeff := makeLowCutFilter cs sr
  ({ chains.1 with
      lowCutBypassed := cs.lowCutBypassed,
      lowCut := updateCutFilter chains.1.lowCut (coeffListIdx lowCutCoeff) cs.lowCutSlope },
   { chains.2 with
      lowCutBypassed := cs.lowCutBypassed,
      lowCut := updateCutFilter chains.2.lowCut (coeffListIdx lowCutCoeff) cs.lowCutSlope })

/-- updateHighCutFilter(cs): the high-cut counterpart. -/
def updateHighCutFilter (cs : ChainSettings) (sr : ℝ) (chains : MonoChain × MonoChain) :
    MonoChain × MonoChain :=
  let highCutCoeff := makeHighCutFilter cs sr
  ({ chains.1 with
      highCutBypassed := cs.highCutBypassed,
      highCut := updateCutFilter chains.1.highCut (coeffListIdx highCutCoeff) cs.highCutSlope },
   { chains.2 with
      highCutBypassed := cs.highCutBypassed,
      highCut := updateCutFilter chains.2.highCut (coeffListIdx highCutCoeff) cs.highCutSlope })

/-- updateFilters(): peak, then low cut, then high cut, on both chains. -/
def updateFilters (cs : ChainSettings) (sr : ℝ) (chains : MonoChain × MonoChain) :
    MonoChain × MonoChain :=
  updateHighCutFilter cs sr (updateLowCutFilter cs sr (updatePeakFilter cs sr chains))

/-- SimpleEQAudioProcessor::processBlock: refresh all filters from the current
settings, then run the left buffer through the left chain and the right
buffer through the right chain, in place.  Returns the two output buffers,
the mutated chains and the mutated filter states. -/
def processBlock (cs : ChainSettings) (sr : ℝ) (chains : MonoChain × MonoChain)
    (sts : MonoState × MonoState) (bufL bufR : List ℝ) :
    (List ℝ × List ℝ) × (MonoChain × MonoChain) × (MonoState × MonoState) :=
  let chains2 := updateFilters cs sr chains
  let rl := chains2.1.process sts.1 bufL
  let rr := chains2.2.process sts.2 bufR
  ((rl.1, rr.1), chains2, (rl.2, rr.2))

/-- A concrete all-zero biquad record, used as a plain sample input below. -/
def sampleCoefficients : Coefficients := ⟨0, 0, 0, 0, 0⟩

/-- A concrete CutFilter sub-chain for sample inputs. -/
def sampleCutChain : CutChain Coefficients :=
  ⟨sampleCoefficients, sampleCoefficients, sampleCoefficients, sampleCoefficients,
    false, false, false, false⟩

/-- A concrete mono chain for sample inputs. -/
def sampleMonoChain : MonoChain :=
  ⟨sampleCutChain, sampleCoefficients, sampleCutChain, false, false, false⟩

/-- A concrete parameter snapshot for sample inputs (the parameter-layout
default values). -/
def sampleSettings : ChainSettings :=
  ⟨750, 0, 1, 20, 20000, Slope_12, Slope_12, false, false, false⟩

/-! Analytic response curve (ResponseCurveComponent).  The per-coefficient
magnitude is the JUCE library evaluation of the normalized transfer function
on the unit circle. -/

/-- Modelled from the spec: juce::dsp::IIR::Coefficients::
getMagnitudeForFrequency — the modulus of the normalized biquad transfer
function evaluated at z = exp(-i 2 pi f / fs). -/
def getMagnitudeForFrequency (c : Coefficients) (freq sampleRate : ℝ) : ℝ :=
  let jw : ℂ := Complex.exp (((-(2 * Real.pi * freq / sampleRate) : ℝ) : ℂ) * Complex.I)
  Complex.abs (((c.b0 : ℂ) + (c.b1 : ℂ) * jw + (c.b2 : ℂ) * jw ^ 2)
    / (1 + (c.a1 : ℂ) * jw + (c.a2 : ℂ) * jw ^ 2))

/-- The contribution of one CutFilter sub-chain to the per-pixel magnitude in
ResponseCurveComponent::paint: multiply in every non-bypassed stage. -/
def cutApplyMagnitude (ch : CutChain Coefficients) (freq sr mag : ℝ) : ℝ :=
  let m0 := if ch.byp0 then mag else mag * getMagnitudeForFrequency ch.c0 freq sr
  let m1 := if ch.byp1 then m0 else m0 * getMagnitudeForFrequency ch.c1 freq sr
  let m2 := if ch.byp2 then m1 else m1 * getMagnitudeForFrequency ch.c2 freq sr
  if ch.byp3 then m2 else m2 * getMagnitudeForFrequency ch.c3 freq sr

/-- The per-pixel magnitude loop body of ResponseCurveComponent::paint:
start from 1.0 and multiply in the peak stage and the two cut sub-chains,
skipping any top-level position that is bypassed. -/
def responseMagnitudeAt (mc : MonoChain) (freq sr : ℝ) : ℝ :=
  let m0 := (1 : ℝ)
  let m1 := if mc.peakBypassed then m0 else m0 * getMagnitudeForFrequency mc.peak freq sr
  let m2 := if mc.lowCutBypassed then m1 else cutApplyMagnitude mc.lowCut freq sr m1
  if mc.highCutBypassed then m2 else cutApplyMagnitude mc.highCut freq sr m2

/-- The decibel value stored per pixel by paint:
juce::Decibels::gainToDecibels with its default -100 dB floor. -/
def responseCurveDb (mc : MonoChain) (freq sr : ℝ) : ℝ :=
  gainToDecibels (responseMagnitudeAt mc freq sr) (-100)

/-- ResponseCurveComponent::updateChain: copy the three bypass parameters into
the editor's mono chain, then refresh the peak coefficients and both cut
sub-chains from the factories. -/
def updateChain (cs : ChainSettings) (sr : ℝ) (mc : MonoChain) : MonoChain :=
  let mc1 := { mc with
    lowCutBypassed := cs.lowCutBypassed,
    highCutBypassed := cs.highCutBypassed,
    peakBypassed := cs.peakBypassed }
  let mc2 := { mc1 with peak := makePeakFilter cs sr }
  let mc3 := { mc2 with
    lowCut := updateCutFilter mc2.lowCut (coeffListIdx (makeLowCutFilter cs sr)) cs.lowCutSlope }
  { mc3 with
    highCut := updateCutFilter mc3.highCut (coeffListIdx (makeHighCutFilter cs sr)) cs.highCutSlope }

/-- A settings snapshot with all three stages bypassed, for the C3 witness. -/
def allBypassedSettings : ChainSettings :=
  ⟨750, 0, 1, 20, 20000, Slope_12, Slope_12, true, true, true⟩

/-! The bounded lock-free queue.  The Fifo template is declared in the current
PluginProcessor.h, which is absent from the available sources, so it is
modelled from the specification (section 4.3): fixed capacity, push copies
into the next free slot and reports false when full, pull returns the oldest
unread element and reports "no data" when empty, FIFO order, no blocking. -/

/-- Modelled from the spec: the Fifo ring buffer — fixed capacity, a queue of
not-yet-read elements. -/
structure Fifo (α : Type) where
  capacity : ℕ
  buf : List α

/-- Modelled from the spec: push(item) copies the item into the next free slot
when capacity remains and returns true; when full it drops the item and
returns false, leaving the stored elements untouched. -/
def Fifo.push {α : Type} (f : Fifo α) (x : α) : Fifo α × Bool :=
  if f.buf.length < f.capacity then ({ f with buf := f.buf ++ [x] }, true)
  else (f, false)

/-- Modelled from the spec: pull returns the oldest unread element, or none
when the queue is empty. -/
def Fifo.pull {α : Type} (f : Fifo α) : Fifo α × Option α :=
  match f.buf with
  | [] => (f, none)
  | x :: rest => ({ f with buf := rest }, some x)

/-- Push a whole list of items in order (drops are silent, as in the spec). -/
def Fifo.pushList {α : Type} (f : Fifo α) : List α → Fifo α
  | [] => f
  | x :: xs => Fifo.pushList (f.push x).1 xs

/-! The spectrum pipeline front end: FFTDataGenerator::produceFFTDataForRendering
from PluginProcessor.h.  The Blackman-Harris window table and the
juce::dsp::FFT magnitude-only transform are external library objects and are
taken as parameters. -/

/-- The normalisation/decibel for-loop of produceFFTDataForRendering: the
first count entries are divided by the bin count and converted to decibels
with the supplied floor; later entries are left as produced by the
transform. -/
def dbLoop (negInf : ℝ) (nbBins : ℕ) : ℕ → List ℝ → List ℝ
  | 0, l => l
  | _ + 1, [] => []
  | n + 1, v :: rest => gainToDecibels (v / (nbBins : ℝ)) negInf :: dbLoop negInf nbBins n rest

/-- The mutable pieces of FFTDataGenerator: the working vector and the frame
queue. -/
structure FFTGenState where
  fftData : List ℝ
  fftDataFifo : Fifo (List ℝ)

/-- produceFFTDataForRendering(audioData, negInfinity): zero the working
vector, copy in fftSize samples, multiply the full analysis window by the
window table, run the magnitude-only transform, then normalise the first
fftSize/2 bins and convert them to decibels, and push the result into the
frame queue. -/
def produceFFTDataForRendering (fftMag : List ℝ → List ℝ) (windowTable : List ℝ)
    (fftSize : ℕ) (st : FFTGenState) (audioData : List ℝ) (negInfinity : ℝ) :
    FFTGenState :=
  let zeroed := List.replicate st.fftData.length (0 : ℝ)
  let copied := audioData.take fftSize ++ zeroed.drop fftSize
  let windowed :=
    List.zipWith (fun v w => v * w) (copied.take fftSize) windowTable ++ copied.drop fftSize
  let transformed := fftMag windowed
  let nbBins := fftSize / 2
  let dbData := dbLoop negInfinity nbBins nbBins transformed
  { fftData := dbData, fftDataFifo := (st.fftDataFifo.push dbData).1 }

/-! Change-flag handling.  ResponseCurveComponent owns the only debounce flag
in the program (juce::Atomic<bool> parametersChanged); the audio processor has
none, and SimpleEQAudioProcessor::processBlock calls updateFilters()
unconditionally on every block. -/

/-- The flag-relevant state of ResponseCurveComponent: the atomic
parametersChanged flag and the analysis mono chain. -/
structure RCCState where
  parametersChanged : Bool
  monoChain : MonoChain

/-- ResponseCurveComponent::parameterValueChanged: only set the flag. -/
def parameterValueChangedStep (s : RCCState) : RCCState :=
  { s with parametersChanged := true }

/-- The chain-update portion of ResponseCurveComponent::timerCallback: the
compareAndSetBool(false, true) guard — when the flag was set, clear it and
rebuild the analysis chain with updateChain; otherwise do nothing.  (The FFT
path-producer processing that precedes this in timerCallback touches neither
the flag nor the chain and is modelled separately by
produceFFTDataForRendering.)  The returned Bool records whether updateChain
ran. -/
def timerCallbackChainUpdate (cs : ChainSettings) (sr : ℝ) (s : RCCState) :
    RCCState × Bool :=
  if s.parametersChanged then
    ({ parametersChanged := false, monoChain := updateChain cs sr s.monoChain }, true)
  else (s, false)

/-- A marker coefficient set that no factory produces here, standing for stale
data left in a chain. -/
def stalePeakCoefficients : Coefficients := ⟨5, 5, 5, 5, 5⟩

/-- A chain still holding the stale peak coefficients. -/
def staleChain : MonoChain := { sampleMonoChain with peak := stalePeakCoefficients }

/-- Settings chosen so the peak design evaluates in closed form
(sample rate 8, centre frequency 2 gives omega = pi/2). -/
def counterSettings : ChainSettings :=
  ⟨2, 0, 1, 20, 20000, Slope_12, Slope_12, false, false, false⟩

/-- C1: for every slope index s, after updateCutFilter exactly the cascade
stages 0..s are non-bypassed and carry the freshly supplied coefficients,
while stages s+1..3 are bypassed (keeping whatever coefficients were stored),
regardless of the previous state of the sub-chain. -/
theorem claim1_updateCutFilter_activates_exactly_slope_stages
    {α : Type} (ch : CutChain α) (cutCoeff : ℕ → α) (slope : Slope) (i : Fin 4) :
    (updateCutFilter ch cutCoeff slope).bypassedAt i
        = decide (slopeIndex slope < i.val) ∧
    (updateCutFilter ch cutCoeff slope).coeffAt i
        = if i.val ≤ slopeIndex slope then cutCoeff i.val else ch.coeffAt i := by
  cases slope <;> fin_cases i <;>
    simp [updateCutFilter, CutChain.updateStage, CutChain.setAllBypassed,
      CutChain.coeffAt, CutChain.bypassedAt, slopeIndex]

/-- C4: for every slope index s, the low-cut coefficient factory is the
high-pass Butterworth cascade of exactly s+1 second-order sections designed
with filter order 2*(s+1) ∈ {2,4,6,8}, and the high-cut factory is the
low-pass counterpart with the same order mapping. -/
theorem claim4_cut_factories_butterworth_orders (cs : ChainSettings) (sr : ℝ) :
    makeLowCutFilter cs sr
        = (List.range (slopeIndex cs.lowCutSlope + 1)).map
            (fun i => IIRmakeHighPass sr cs.lowCutFreq
              (butterworthQ (2 * (slopeIndex cs.lowCutSlope + 1)) i)) ∧
    (makeLowCutFilter cs sr).length = slopeIndex cs.lowCutSlope + 1 ∧
    2 * (slopeIndex cs.lowCutSlope + 1) ∈ ([2, 4, 6, 8] : List ℕ) ∧
    makeHighCutFilter cs sr
        = (List.range (slopeIndex cs.highCutSlope + 1)).map
            (fun i => IIRmakeLowPass sr cs.highCutFreq
              (butterworthQ (2 * (slopeIndex cs.highCutSlope + 1)) i)) ∧
    (makeHighCutFilter cs sr).length = slopeIndex cs.highCutSlope + 1 ∧
    2 * (slopeIndex cs.highCutSlope + 1) ∈ ([2, 4, 6, 8] : List ℕ) := by
  obtain ⟨pf, pg, pq, lf, hf, ls, hs, lb, hb, pb⟩ := cs
  refine ⟨?_, ?_, ?_, ?_, ?_, ?_⟩
  · cases ls <;>
      simp [makeLowCutFilter, designIIRHighpassHighOrderButterworthMethod, slopeIndex]
  · cases ls <;>
      simp [makeLowCutFilter, designIIRHighpassHighOrderButterworthMethod, slopeIndex]
  · cases ls <;> simp [slopeIndex]
  · cases hs <;>
      simp [makeHighCutFilter, designIIRLowpassHighOrderButterworthMethod, slopeIndex]
  · cases hs <;>
      simp [makeHighCutFilter, designIIRLowpassHighOrderButterworthMethod, slopeIndex]
  · cases hs <;> simp [slopeIndex]

/-- A biquad with zeroed registers maps a silent buffer to a silent buffer and
stays zeroed: the filter recursion has no constant term. -/
theorem processList_zero (c : Coefficients) (n : ℕ) :
    processList c zeroBiquadState (List.replicate n 0) = (List.replicate n 0, zeroBiquadState) := by
  induction n with
  | zero => rfl
  | succ k ih =>
    simp only [List.replicate_succ, processList, processSample, zeroBiquadState,
      mul_zero, add_zero, zero_add, sub_zero] at ih ⊢
    rw [ih]

/-- A CutFilter sub-chain with zeroed registers maps silence to silence. -/
theorem cutProcess_zero (ch : CutChain Coefficients) (n : ℕ) :
    ch.process zeroCutState (List.replicate n 0) = (List.replicate n 0, zeroCutState) := by
  simp only [CutChain.process, zeroCutState]
  cases ch.byp0 <;> cases ch.byp1 <;> cases ch.byp2 <;> cases ch.byp3 <;>
    simp [processList_zero]

/-- The whole mono chain with zeroed registers maps silence to silence. -/
theorem monoProcess_zero (mc : MonoChain) (n : ℕ) :
    mc.process zeroMonoState (List.replicate n 0) = (List.replicate n 0, zeroMonoState) := by
  simp only [MonoChain.process, zeroMonoState]
  cases mc.lowCutBypassed <;> cases mc.peakBypassed <;> cases mc.highCutBypassed <;>
    simp [processList_zero, cutProcess_zero]

/-- C2: for every filter configuration (any settings, any sample rate, any
previously stored chain coefficients), running processBlock on all-zero
buffers from the freshly prepared (zeroed) filter state yields all-zero
buffers on both channels: no DC injection. -/
theorem claim2_processBlock_zero_in_zero_out (cs : ChainSettings) (sr : ℝ)
    (chains : MonoChain × MonoChain) (n m : ℕ) :
    (processBlock cs sr chains (zeroMonoState, zeroMonoState)
        (List.replicate n 0) (List.replicate m 0)).1
      = (List.replicate n 0, List.replicate m 0) := by
  simp [processBlock, monoProcess_zero]

/-- C9: every filter update drives the left and the right chain with the same
coefficients and the same bypass flags, so starting from equal chains (both
are default-constructed identically) the chains stay identical after
updatePeakFilter, after updateLowCutFilter, after updateHighCutFilter, and
after the combined updateFilters. -/
theorem claim9_left_right_chains_identical (cs : ChainSettings) (sr : ℝ)
    (l r : MonoChain) (h : l = r) :
    (updatePeakFilter cs sr (l, r)).1 = (updatePeakFilter cs sr (l, r)).2 ∧
    (updateLowCutFilter cs sr (l, r)).1 = (updateLowCutFilter cs sr (l, r)).2 ∧
    (updateHighCutFilter cs sr (l, r)).1 = (updateHighCutFilter cs sr (l, r)).2 ∧
    (updateFilters cs sr (l, r)).1 = (updateFilters cs sr (l, r)).2 := by
  subst h
  refine ⟨rfl, rfl, rfl, ?_⟩
  simp only [updateFilters, updateHighCutFilter, updateLowCutFilter, updatePeakFilter]

/-- Witness for C9 at a concrete input: both chains equal before the update,
and the theorem yields equality after every update. -/
theorem claim9_left_right_chains_identical_witness :
    (updatePeakFilter sampleSettings 48000 (sampleMonoChain, sampleMonoChain)).1
        = (updatePeakFilter sampleSettings 48000 (sampleMonoChain, sampleMonoChain)).2 ∧
    (updateLowCutFilter sampleSettings 48000 (sampleMonoChain, sampleMonoChain)).1
        = (updateLowCutFilter sampleSettings 48000 (sampleMonoChain, sampleMonoChain)).2 ∧
    (updateHighCutFilter sampleSettings 48000 (sampleMonoChain, sampleMonoChain)).1
        = (updateHighCutFilter sampleSettings 48000 (sampleMonoChain, sampleMonoChain)).2 ∧
    (updateFilters sampleSettings 48000 (sampleMonoChain, sampleMonoChain)).1
        = (updateFilters sampleSettings 48000 (sampleMonoChain, sampleMonoChain)).2 :=
  claim9_left_right_chains_identical sampleSettings 48000 sampleMonoChain sampleMonoChain rfl

/-- C3: when the three bypass parameters are all set, the analytic response
curve of the refreshed editor chain is exactly 0 dB at every frequency, and
processBlock returns both audio buffers unchanged (with the filter states
also untouched). -/
theorem claim3_all_bypassed_flat_response_and_identity (cs : ChainSettings) (sr : ℝ)
    (hl : cs.lowCutBypassed = true) (hp : cs.peakBypassed = true)
    (hh : cs.highCutBypassed = true) (mc : MonoChain) (freq : ℝ)
    (chains : MonoChain × MonoChain) (sts : MonoState × MonoState) (bufL bufR : List ℝ) :
    responseCurveDb (updateChain cs sr mc) freq sr = 0 ∧
    (processBlock cs sr chains sts bufL bufR).1 = (bufL, bufR) ∧
    (processBlock cs sr chains sts bufL bufR).2.2 = sts := by
  refine ⟨?_, ?_, ?_⟩
  · have hmag : responseMagnitudeAt (updateChain cs sr mc) freq sr = 1 := by
      simp [responseMagnitudeAt, updateChain, hl, hp, hh]
    rw [responseCurveDb, hmag]
    rw [gainToDecibels, if_pos one_pos, Real.logb_one]
    norm_num
  · simp [processBlock, MonoChain.process, updateFilters, updateHighCutFilter,
      updateLowCutFilter, updatePeakFilter, hl, hp, hh]
  · simp [processBlock, MonoChain.process, updateFilters, updateHighCutFilter,
      updateLowCutFilter, updatePeakFilter, hl, hp, hh]

/-- Witness for C3 at a concrete input: all bypass flags set, response is 0 dB
at 1000 Hz and a concrete two-sample buffer passes through unchanged. -/
theorem claim3_all_bypassed_flat_response_and_identity_witness :
    responseCurveDb (updateChain allBypassedSettings 48000 sampleMonoChain) 1000 48000 = 0 ∧
    (processBlock allBypassedSettings 48000 (sampleMonoChain, sampleMonoChain)
        (zeroMonoState, zeroMonoState) [1, 2] [3, 4]).1 = ([1, 2], [3, 4]) ∧
    (processBlock allBypassedSettings 48000 (sampleMonoChain, sampleMonoChain)
        (zeroMonoState, zeroMonoState) [1, 2] [3, 4]).2.2
      = (zeroMonoState, zeroMonoState) :=
  claim3_all_bypassed_flat_response_and_identity allBypassedSettings 48000 rfl rfl rfl
    sampleMonoChain 1000 (sampleMonoChain, sampleMonoChain) (zeroMonoState, zeroMonoState)
    [1, 2] [3, 4]

/-- pushList appends at most the remaining free slots, preserving what was
already stored and the capacity. -/
theorem fifo_pushList_buf {α : Type} (items : List α) (f : Fifo α) :
    (f.pushList items).buf = f.buf ++ items.take (f.capacity - f.buf.length) ∧
    (f.pushList items).capacity = f.capacity := by
  induction items generalizing f with
  | nil => simp [Fifo.pushList]
  | cons x xs ih =>
    by_cases h : f.buf.length < f.capacity
    · have hstep : (f.push x).1 = { f with buf := f.buf ++ [x] } := by
        simp [Fifo.push, h]
      obtain ⟨ih1, ih2⟩ := ih ((f.push x).1)
      rw [Fifo.pushList, ih1, ih2, hstep]
      have harith : f.capacity - f.buf.length = (f.capacity - (f.buf.length + 1)) + 1 := by
        omega
      constructor
      · simp only [List.length_append, List.length_cons, List.length_nil]
        rw [harith, List.take_succ_cons, List.append_assoc]
        rfl
      · rfl
    · have hstep : (f.push x).1 = f := by
        simp [Fifo.push, h]
      obtain ⟨ih1, ih2⟩ := ih ((f.push x).1)
      rw [Fifo.pushList, ih1, ih2, hstep]
      have hzero : f.capacity - f.buf.length = 0 := by omega
      simp [hzero]

/-- C7: a push on a full ring buffer returns false and leaves the stored
elements unchanged; a pull on an empty ring buffer returns "no data"; pushing
a list of items into an empty ring buffer stores exactly the first capacity
of them in order (excess pushes are dropped without corrupting earlier
items); and pull always hands back the oldest stored element, so elements are
read in push order. -/
theorem claim7_fifo_bounded_fifo_behaviour (f : Fifo ℕ) (x : ℕ) (cap : ℕ)
    (items : List ℕ) (g : Fifo ℕ) :
    (f.buf.length = f.capacity → f.push x = (f, false)) ∧
    (f.buf = [] → f.pull = (f, none)) ∧
    (Fifo.pushList ⟨cap, []⟩ items).buf = items.take cap ∧
    g.pull = ({ g with buf := g.buf.tail }, g.buf.head?) := by
  refine ⟨?_, ?_, ?_, ?_⟩
  · intro h
    simp [Fifo.push, h]
  · intro h
    cases g2 : f.buf with
    | nil => simp [Fifo.pull, g2]
    | cons y ys => rw [g2] at h; cases h
  · have := (fifo_pushList_buf items (⟨cap, []⟩ : Fifo ℕ)).1
    simpa using this
  · obtain ⟨gc, gb⟩ := g
    cases gb with
    | nil => simp [Fifo.pull]
    | cons y ys => simp [Fifo.pull]

/-- Witness for C7 at concrete inputs: a full two-slot buffer refuses a push
and keeps its contents, and an empty buffer pulls "no data". -/
theorem claim7_fifo_bounded_fifo_behaviour_witness :
    Fifo.push (⟨2, [7, 8]⟩ : Fifo ℕ) 9 = ((⟨2, [7, 8]⟩ : Fifo ℕ), false) ∧
    Fifo.pull (⟨3, []⟩ : Fifo ℕ) = ((⟨3, []⟩ : Fifo ℕ), none) ∧
    (Fifo.pushList (⟨2, []⟩ : Fifo ℕ) [4, 5, 6]).buf = [4, 5] :=
  ⟨(claim7_fifo_bounded_fifo_behaviour ⟨2, [7, 8]⟩ 9 0 [] ⟨0, []⟩).1 rfl,
   (claim7_fifo_bounded_fifo_behaviour ⟨3, []⟩ 0 0 [] ⟨0, []⟩).2.1 rfl,
   (claim7_fifo_bounded_fifo_behaviour ⟨0, []⟩ 0 2 [4, 5, 6] ⟨0, []⟩).2.2.1⟩

/-- The decibel loop is the map of normalise-then-convert over the first
count entries, leaving the rest of the vector untouched. -/
theorem dbLoop_eq_take_map (negInf : ℝ) (nbBins : ℕ) (n : ℕ) (l : List ℝ) :
    dbLoop negInf nbBins n l
      = (l.take n).map (fun v => gainToDecibels (v / (nbBins : ℝ)) negInf) ++ l.drop n := by
  induction n generalizing l with
  | zero => simp [dbLoop]
  | succ k ih =>
    cases l with
    | nil => simp [dbLoop]
    | cons v rest => simp [dbLoop, ih]

/-- C6: for every input block, the FFT pipeline windows the full analysis
buffer, transforms it, then replaces each of the first fftSize/2 bins b by
gainToDecibels(b / (fftSize/2)) with the -48 dB floor that PathProducer
passes (so a zero-magnitude bin becomes exactly -48 dB), and pushes the
resulting frame into the frame FIFO. -/
theorem claim6_fft_pipeline_normalise_db_push (fftMag : List ℝ → List ℝ)
    (windowTable : List ℝ) (fftSize : ℕ) (st : FFTGenState) (audioData : List ℝ) :
    let zeroed := List.replicate st.fftData.length (0 : ℝ)
    let copied := audioData.take fftSize ++ zeroed.drop fftSize
    let windowed :=
      List.zipWith (fun v w => v * w) (copied.take fftSize) windowTable ++ copied.drop fftSize
    let frame :=
      ((fftMag windowed).take (fftSize / 2)).map
          (fun v => gainToDecibels (v / ((fftSize / 2 : ℕ) : ℝ)) (-48))
        ++ (fftMag windowed).drop (fftSize / 2)
    (produceFFTDataForRendering fftMag windowTable fftSize st audioData (-48)).fftData
        = frame ∧
    (produceFFTDataForRendering fftMag windowTable fftSize st audioData (-48)).fftDataFifo
        = (st.fftDataFifo.push frame).1 ∧
    gainToDecibels 0 (-48) = -48 := by
  refine ⟨?_, ?_, ?_⟩
  · simp [produceFFTDataForRendering, dbLoop_eq_take_map]
  · simp [produceFFTDataForRendering, dbLoop_eq_take_map]
  · simp [gainToDecibels]

/-- C8 (amended): the UI timer tick recomputes the analysis chain exactly when
its atomic changed flag was set, consuming and resetting the flag, and the
notification callback only sets the flag; the audio callback, by contrast,
recomputes the real-time chains' coefficients unconditionally on every
processBlock call — there is no audio-side changed flag. -/
theorem claim8_amended_ui_flag_guard_audio_unconditional (cs : ChainSettings)
    (sr : ℝ) (s : RCCState) (chains : MonoChain × MonoChain)
    (sts : MonoState × MonoState) (bufL bufR : List ℝ) :
    (timerCallbackChainUpdate cs sr s).2 = s.parametersChanged ∧
    (timerCallbackChainUpdate cs sr s).1.parametersChanged = false ∧
    (timerCallbackChainUpdate cs sr s).1.monoChain
        = (if s.parametersChanged then updateChain cs sr s.monoChain else s.monoChain) ∧
    (parameterValueChangedStep s).parametersChanged = true ∧
    (processBlock cs sr chains sts bufL bufR).2.1 = updateFilters cs sr chains := by
  obtain ⟨flag, mcs⟩ := s
  cases flag <;>
    simp [timerCallbackChainUpdate, parameterValueChangedStep, processBlock]

/-- The peak coefficients that counterSettings produce at sample rate 8. -/
theorem makePeakFilter_counterSettings :
    makePeakFilter counterSettings 8 = ⟨1, 0, 1 / 3, 0, 1 / 3⟩ := by
  have hgain : decibelsToGain 0 (-100) = 1 := by
    rw [decibelsToGain, if_pos (by norm_num : (-100 : ℝ) < 0)]
    rw [show ((0 : ℝ) * 0.05) = 0 by norm_num, Real.rpow_zero]
  simp only [makePeakFilter, counterSettings]
  rw [IIRmakePeakFilter]
  simp only [hgain]
  rw [show (2 : ℝ) * Real.pi * max (2 : ℝ) 2 / 8 = Real.pi / 2 by rw [max_self]; ring]
  rw [Real.sin_pi_div_two, Real.cos_pi_div_two, Real.sqrt_one]
  rw [Coefficients.normalize]
  norm_num

/-- C8 counterexample: in a run where no parameter change was ever signalled
(the only changed flag in the program is false), a single audio callback
still recomputes the filter coefficients: processBlock replaces the stale
peak coefficients with freshly designed ones.  This contradicts the claim
that coefficient recomputation happens only after consuming a changed
flag. -/
theorem claim8_counterexample_audio_recomputes_without_signal :
    (RCCState.mk false staleChain).parametersChanged = false ∧
    (processBlock counterSettings 8 (staleChain, staleChain)
        (zeroMonoState, zeroMonoState) [] []).2.1.1.peak
      = makePeakFilter counterSettings 8 ∧
    makePeakFilter counterSettings 8 ≠ staleChain.peak := by
  refine ⟨rfl, ?_, ?_⟩
  · simp [processBlock, updateFilters, updateHighCutFilter, updateLowCutFilter,
      updatePeakFilter]
  · rw [makePeakFilter_counterSettings]
    intro h
    have hb := congrArg Coefficients.b0 h
    simp [staleChain, stalePeakCoefficients, sampleMonoChain] at hb

/-! Flat response of the unity-gain peak filter (claim C5).  The key fact is
that the denominator polynomial of the designed biquad never vanishes on the
unit circle. -/

/-- A real quadratic 1 + p z + q z^2 with q < 1 that is positive at z = 1 and
at z = -1 has no root on the unit circle. -/
theorem unitCircleQuadraticNeZero (p q t : ℝ) (hq : q < 1) (h1 : 0 < 1 + p + q)
    (h2 : 0 < 1 - p + q) :
    (1 : ℂ) + (p : ℂ) * Complex.exp ((t : ℂ) * Complex.I)
      + (q : ℂ) * Complex.exp ((t : ℂ) * Complex.I) ^ 2 ≠ 0 := by
  intro hzero
  have hw : Complex.exp ((t : ℂ) * Complex.I)
      = ((Real.cos t : ℝ) : ℂ) + ((Real.sin t : ℝ) : ℂ) * Complex.I := by
    rw [Complex.exp_mul_I, ← Complex.ofReal_cos, ← Complex.ofReal_sin]
  rw [hw] at hzero
  rw [Complex.ext_iff] at hzero
  obtain ⟨hre, him⟩ := hzero
  simp only [Complex.add_re, Complex.add_im, Complex.mul_re, Complex.mul_im,
    Complex.ofReal_re, Complex.ofReal_im, Complex.I_re, Complex.I_im, Complex.one_re,
    Complex.one_im, Complex.zero_re, Complex.zero_im, pow_two] at hre him
  have hsum := Real.sin_sq_add_cos_sq t
  by_cases hs : Real.sin t = 0
  · rw [hs] at hre hsum
    have hcases : Real.cos t = 1 ∨ Real.cos t = -1 := by
      rcases mul_eq_zero.mp (show (Real.cos t - 1) * (Real.cos t + 1) = 0 by nlinarith) with h | h
      · left; linarith
      · right; linarith
    rcases hcases with h | h <;> rw [h] at hre <;> nlinarith [hre, h1, h2]
  · have him2 : Real.sin t * (p + 2 * q * Real.cos t) = 0 := by nlinarith [him]
    have hfac : p + 2 * q * Real.cos t = 0 := by
      rcases mul_eq_zero.mp him2 with h | h
      · exact absurd h hs
      · exact h
    have hp : p = -(2 * q * Real.cos t) := by linarith
    rw [hp] at hre
    nlinarith [hre, hsum, hq]

/-- A gain parameter of 0 dB is handed to the peak design as linear gain
10^(0/20) = 1. -/
theorem decibelsToGain_zero : decibelsToGain 0 (-100) = 1 := by
  rw [decibelsToGain, if_pos (by norm_num : (-100 : ℝ) < 0)]
  rw [show ((0 : ℝ) * 0.05) = 0 by norm_num, Real.rpow_zero]

/-- With linear gain 1 the peak design has identical numerator and denominator
taps, and the denominator never vanishes on the unit circle, so the magnitude
response is 1 at every query frequency. -/
theorem unity_peak_flat (sr f Q freq : ℝ) (hQ : 0 < Q)
    (hw1 : 0 < 2 * Real.pi * max f 2 / sr) (hw2 : 2 * Real.pi * max f 2 / sr < Real.pi) :
    getMagnitudeForFrequency (IIRmakePeakFilter sr f Q (decibelsToGain 0 (-100))) freq sr = 1 := by
  have hsin : 0 < Real.sin (2 * Real.pi * max f 2 / sr) :=
    Real.sin_pos_of_pos_of_lt_pi hw1 hw2
  have hcsq := Real.sin_sq_add_cos_sq (2 * Real.pi * max f 2 / sr)
  have hcos1 : Real.cos (2 * Real.pi * max f 2 / sr) < 1 := by nlinarith [hsin, hcsq]
  have hcos2 : -1 < Real.cos (2 * Real.pi * max f 2 / sr) := by nlinarith [hsin, hcsq]
  have halpha : 0 < Real.sin (2 * Real.pi * max f 2 / sr) / (Q * 2) := by positivity
  set al := Real.sin (2 * Real.pi * max f 2 / sr) / (Q * 2) with hal
  have h1al : (0 : ℝ) < 1 + al := by linarith
  have hcoeffs : IIRmakePeakFilter sr f Q (decibelsToGain 0 (-100))
      = Coefficients.mk 1 (-2 * Real.cos (2 * Real.pi * max f 2 / sr) / (1 + al))
          ((1 - al) / (1 + al)) (-2 * Real.cos (2 * Real.pi * max f 2 / sr) / (1 + al))
          ((1 - al) / (1 + al)) := by
    rw [decibelsToGain_zero, IIRmakePeakFilter]
    simp only [Real.sqrt_one, mul_one, div_one, ← hal]
    rw [Coefficients.normalize]
    rw [div_self h1al.ne']
  set p := -2 * Real.cos (2 * Real.pi * max f 2 / sr) / (1 + al) with hpdef
  set q := (1 - al) / (1 + al) with hqdef
  have hqlt : q < 1 := by
    rw [hqdef, div_lt_one h1al]
    linarith
  have hpos1 : 0 < 1 + p + q := by
    have hfrac : 1 + p + q = (2 - 2 * Real.cos (2 * Real.pi * max f 2 / sr)) / (1 + al) := by
      rw [hpdef, hqdef]
      field_simp
      ring
    rw [hfrac]
    apply div_pos (by linarith) h1al
  have hpos2 : 0 < 1 - p + q := by
    have hfrac : 1 - p + q = (2 + 2 * Real.cos (2 * Real.pi * max f 2 / sr)) / (1 + al) := by
      rw [hpdef, hqdef]
      field_simp
      ring
    rw [hfrac]
    apply div_pos (by linarith) h1al
  have hden := unitCircleQuadraticNeZero p q (-(2 * Real.pi * freq / sr)) hqlt hpos1 hpos2
  rw [hcoeffs, getMagnitudeForFrequency]
  simp only [Complex.ofReal_one]
  rw [div_self hden, map_one]

/-- C5: a peak filter configured with 0 dB gain is a no-op: for any centre
frequency and any positive Q (with the designed angular frequency inside
(0, pi), i.e. the centre frequency below Nyquist), the produced biquad has
magnitude response exactly 1 — hence exactly 0 dB — at every query
frequency, because the linear gain passed to the design is 10^(0/20) = 1. -/
theorem claim5_zero_gain_peak_flat (cs : ChainSettings) (sr freq : ℝ)
    (hg : cs.peakGainInDecibels = 0) (hQ : 0 < cs.peakQuality)
    (hw1 : 0 < 2 * Real.pi * max cs.peakFreq 2 / sr)
    (hw2 : 2 * Real.pi * max cs.peakFreq 2 / sr < Real.pi) :
    getMagnitudeForFrequency (makePeakFilter cs sr) freq sr = 1 ∧
    gainToDecibels (getMagnitudeForFrequency (makePeakFilter cs sr) freq sr) (-100) = 0 := by
  have hmag : getMagnitudeForFrequency (makePeakFilter cs sr) freq sr = 1 := by
    rw [makePeakFilter, hg]
    exact unity_peak_flat sr cs.peakFreq cs.peakQuality freq hQ hw1 hw2
  refine ⟨hmag, ?_⟩
  rw [hmag, gainToDecibels, if_pos one_pos, Real.logb_one]
  norm_num

/-- Witness for C5 at a concrete input: the default snapshot (peak at 750 Hz,
0 dB, Q = 1) at sample rate 48000 gives magnitude 1 and 0 dB at 440 Hz. -/
theorem claim5_zero_gain_peak_flat_witness :
    getMagnitudeForFrequency (makePeakFilter sampleSettings 48000) 440 48000 = 1 ∧
    gainToDecibels (getMagnitudeForFrequency (makePeakFilter sampleSettings 48000) 440 48000)
        (-100) = 0 :=
  claim5_zero_gain_peak_flat sampleSettings 48000 440 rfl (by norm_num [sampleSettings])
    (by rw [show max sampleSettings.peakFreq 2 = (750 : ℝ) from by norm_num [sampleSettings]]
        positivity)
    (by rw [show max sampleSettings.peakFreq 2 = (750 : ℝ) from by norm_num [sampleSettings]]
        nlinarith [Real.pi_pos])
